import Mathlib

/-
Verification development for the chronos job-scheduling service.

The definitions below are a shallow embedding of the scheduler
(src/services/jobScheduler.js), the worker pipeline
(src/workers/jobWorker.js), the HTTP executor adapter
(src/services/jobExecutor.js) and the BullMQ queue wrapper
(src/queues/jobQueue.js).  Instants are modelled as `Int`
(milliseconds since the epoch), database rows as Lean structures,
and each asynchronous handler as a pure state-transformer on those
structures.  JavaScript truthiness on numeric fields (`x || d`,
`x && p`) is modelled explicitly: `0` and `null` are falsy.
-/

namespace Chronos

/-- `schedule_type` enum of the `jobs` table. -/
inductive ScheduleType
  | immediate
  | scheduled
  | recurring
deriving DecidableEq, Repr

/-- `status` enum of the `jobs` table. -/
inductive JobStatus
  | active
  | paused
  | completed
  | failed
  | cancelled
deriving DecidableEq, Repr

/-- `status` enum of the `job_executions` table. -/
inductive ExecStatus
  | pending
  | running
  | completed
  | failed
  | cancelled
  | timeout
deriving DecidableEq, Repr

/-- `retry_backoff` enum of the `jobs` table. -/
inductive RetryBackoff
  | fixed
  | exponential
deriving DecidableEq, Repr

/-- A row of the `jobs` table (src/models/Job.js), restricted to the
fields the scheduling core reads or writes. -/
structure Job where
  id : Nat
  status : JobStatus
  scheduleType : ScheduleType
  scheduledAt : Option Int
  cronExpression : Option String
  timezone : String
  priority : Nat
  maxRetries : Nat
  retryDelay : Nat
  retryBackoff : RetryBackoff
  timeout : Nat
  lastExecutedAt : Option Int
  nextExecutionAt : Option Int
  totalExecutions : Nat
  successfulExecutions : Nat
  failedExecutions : Nat
  endAt : Option Int
  maxExecutions : Option Nat
deriving DecidableEq, Repr

/-- Result object returned by the HTTP executor on success
(src/services/jobExecutor.js, `executeHttpJob`). -/
structure HttpResult where
  statusCode : Nat
  body : String
deriving DecidableEq, Repr

/-- A row of the `job_executions` table (src/models/JobExecution.js),
restricted to the fields the worker writes. -/
structure JobExecution where
  jobId : Nat
  status : ExecStatus
  attempt : Nat
  startedAt : Int
  completedAt : Option Int
  duration : Option Nat
  result : Option HttpResult
  errorMessage : Option String
  isRetry : Bool
  previousExecutionId : Option Nat
deriving DecidableEq, Repr

/-- Notification trigger points invoked by the worker
(src/services/notificationService.js). -/
inductive Notified
  | jobCompleted
  | jobRetry
  | maxRetriesExceeded
deriving DecidableEq, Repr

/-- `config.job.maxRetryAttempts` (src/config/index.js line 46,
default 3). -/
def maxRetryAttemptsDefault : Nat := 3

/-- `config.job.retryDelayMs` (src/config/index.js line 47,
default 5000). -/
def retryDelayMsDefault : Nat := 5000

/-- The value of `jobData.maxRetries || config.job.maxRetryAttempts`
in the worker (src/workers/jobWorker.js line 130): a numeric envelope
field of `0` is falsy in JavaScript, so it is replaced by the
configured default. -/
def effectiveMaxRetries (maxRetries : Nat) : Nat :=
  if maxRetries = 0 then maxRetryAttemptsDefault else maxRetries

/-- `isLastAttempt` in the worker (src/workers/jobWorker.js line 130):
`bullJob.attemptsMade + 1 >= (jobData.maxRetries || config.job.maxRetryAttempts)`. -/
def isLastAttempt (attemptsMade maxRetries : Nat) : Bool :=
  decide (attemptsMade + 1 ≥ effectiveMaxRetries maxRetries)

/-- The spec sentence, stated as written, for comparison with
`isLastAttempt`: `is_last = attempt ≥ max + 1` where
`attempt = attemptsMade + 1`. -/
def specIsLast (attempt maxRetries : Nat) : Bool :=
  decide (attempt ≥ maxRetries + 1)

/-- The `JobExecution.create` call at the top of `processJob`
(src/workers/jobWorker.js lines 44-52): status `running`,
`attempt = bullJob.attemptsMade + 1`, `isRetry = bullJob.attemptsMade > 0`.
No other field of the row is set, so `previousExecutionId` keeps its
model default `null`. -/
def createExecution (jobId attemptsMade : Nat) (now : Int) : JobExecution :=
  { jobId := jobId
    status := ExecStatus.running
    attempt := attemptsMade + 1
    startedAt := now
    completedAt := none
    duration := none
    result := none
    errorMessage := none
    isRetry := decide (attemptsMade > 0)
    previousExecutionId := none }

/-- `job.endAt && new Date() >= new Date(job.endAt)`
(src/services/jobScheduler.js line 328): `null` is falsy. -/
def endReached (now : Int) (j : Job) : Bool :=
  match j.endAt with
  | some e => decide (now ≥ e)
  | none => false

/-- `job.maxExecutions && job.totalExecutions >= job.maxExecutions`
(src/services/jobScheduler.js line 334): `null` and `0` are falsy. -/
def maxExecutionsReached (j : Job) : Bool :=
  match j.maxExecutions with
  | some m => decide (0 < m) && decide (j.totalExecutions ≥ m)
  | none => false

/-- `JobScheduler.updateNextExecution` (src/services/jobScheduler.js
lines 321-344).  Non-recurring jobs are returned unchanged (the code
returns early).  If an end condition holds the job is marked
`completed`; no field other than `status` is written on that path.
Otherwise `nextExecutionAt` is recomputed from the cron expression;
the cron library's next instant is passed in as `cronNext`. -/
def updateNextExecution (cronNext now : Int) (j : Job) : Job :=
  if j.scheduleType ≠ ScheduleType.recurring then j
  else if endReached now j then { j with status := JobStatus.completed }
  else if maxExecutionsReached j then { j with status := JobStatus.completed }
  else { j with nextExecutionAt := some cronNext }

/-- A Ready-Queue registration, as created by the queue wrapper
(src/queues/jobQueue.js): an immediate envelope with a priority, a
delayed envelope, or a repeatable (cron) registration. -/
inductive QueueKind
  | immediate (priority : Nat)
  | delayed (delay : Int)
  | repeatable (cron : String) (tz : String)
deriving DecidableEq, Repr

/-- One entry of the Ready Queue. -/
structure QueueEntry where
  jobId : Nat
  kind : QueueKind
deriving DecidableEq, Repr

/-- `JobScheduler.cancelJob` (src/services/jobScheduler.js lines
251-276): remove the job's queue entries (repeatable registration or
pending envelope), then set `status = 'cancelled'` and save.  No other
field of the row is written. -/
def cancelJob (j : Job) (q : List QueueEntry) : Job × List QueueEntry :=
  ({ j with status := JobStatus.cancelled },
   q.filter (fun e => !(e.jobId = j.id)))

/-- `JobScheduler.pauseJob` (src/services/jobScheduler.js lines
184-209): remove queue entries, set `status = 'paused'`. -/
def pauseJob (j : Job) (q : List QueueEntry) : Job × List QueueEntry :=
  ({ j with status := JobStatus.paused },
   q.filter (fun e => !(e.jobId = j.id)))

/-- The row mutation of `JobScheduler.resumeJob`
(src/services/jobScheduler.js lines 215-245): rejects unless the job
is paused; recomputes `nextExecutionAt` for recurring jobs; sets
`status = 'active'`. -/
def resumeJob (cronNext : Int) (j : Job) : Except String Job :=
  if j.status ≠ JobStatus.paused then Except.error "Job is not paused"
  else
    let j1 := if j.scheduleType = ScheduleType.recurring
              then { j with nextExecutionAt := some cronNext } else j
    Except.ok { j1 with status := JobStatus.active }

/-- Success branch of `processJob` (src/workers/jobWorker.js lines
76-110).  The execution row gets `completed`, `completedAt`,
`duration`, `result`.  The worker's in-memory job instance gets
`lastExecutedAt` and the two counter increments; for recurring jobs
`updateNextExecution` re-reads the persisted row (whose counters are
still pre-increment, since the worker saves afterwards) and writes
`status`/`nextExecutionAt`, after which the worker's save persists
only the fields it changed; for non-recurring jobs the worker sets
`status = 'completed'`. -/
def processSuccess (cronNext now : Int) (dur : Nat) (r : HttpResult)
    (j : Job) (e : JobExecution) : Job × JobExecution :=
  let e2 := { e with status := ExecStatus.completed
                     completedAt := some now
                     duration := some dur
                     result := some r }
  if j.scheduleType = ScheduleType.recurring then
    let adv := updateNextExecution cronNext now j
    ({ adv with lastExecutedAt := some now
                totalExecutions := j.totalExecutions + 1
                successfulExecutions := j.successfulExecutions + 1 }, e2)
  else
    ({ j with lastExecutedAt := some now
              totalExecutions := j.totalExecutions + 1
              successfulExecutions := j.successfulExecutions + 1
              status := JobStatus.completed }, e2)

/-- Failure branch of `processJob` (src/workers/jobWorker.js lines
128-198).  The execution row gets `failed`, `completedAt`, `duration`
and the error; the job gets `lastExecutedAt` and the two counter
increments; when `isLastAttempt` the job is set to `failed`
(regardless of schedule type) and `max_retries_exceeded` is emitted,
otherwise `job_retry` is emitted.  `nextExecutionAt` is not touched. -/
def processFailure (now : Int) (dur : Nat) (envMaxRetries attemptsMade : Nat)
    (errMsg : String) (j : Job) (e : JobExecution) :
    Job × JobExecution × List Notified :=
  let isLast := isLastAttempt attemptsMade envMaxRetries
  let e2 := { e with status := ExecStatus.failed
                     completedAt := some now
                     duration := some dur
                     errorMessage := some errMsg }
  let j2 := { j with lastExecutedAt := some now
                     totalExecutions := j.totalExecutions + 1
                     failedExecutions := j.failedExecutions + 1 }
  if isLast then
    ({ j2 with status := JobStatus.failed }, e2, [Notified.maxRetriesExceeded])
  else
    (j2, e2, [Notified.jobRetry])

/-- One full run of `processJob` for a given executor outcome: record
the execution row, then take the success or failure branch. -/
def processAttempt (cronNext now : Int) (dur : Nat)
    (envMaxRetries attemptsMade : Nat)
    (outcome : Except String HttpResult) (j : Job) :
    Job × JobExecution × List Notified :=
  let e := createExecution j.id attemptsMade now
  match outcome with
  | Except.ok r =>
      let p := processSuccess cronNext now dur r j e
      (p.1, p.2, [Notified.jobCompleted])
  | Except.error msg => processFailure now dur envMaxRetries attemptsMade msg j e

/-- The observable events of one HTTP request made by `executeHttpJob`
(src/services/jobExecutor.js lines 45-120): a response arrives, a
network error fires, or the socket `timeout` event fires. -/
inductive HttpEvent
  | response (statusCode : Nat) (body : String)
  | netError (msg : String)
  | timedOut
deriving DecidableEq, Repr

/-- `JobExecutor.executeHttpJob` (src/services/jobExecutor.js lines
45-120): resolves with the result when the status is in `[200, 300)`,
otherwise rejects; on the socket `timeout` event it destroys the
request and rejects with `Error('HTTP request timed out')`.  The
deadline used is the payload's own `timeout` (default 30000), never
`job.timeout`. -/
def executeHttpJob : HttpEvent → Except String HttpResult
  | HttpEvent.response s b =>
      if 200 ≤ s ∧ s < 300 then Except.ok { statusCode := s, body := b }
      else Except.error ("HTTP request failed with status " ++ toString s ++ ": " ++ b)
  | HttpEvent.netError m => Except.error ("HTTP request failed: " ++ m)
  | HttpEvent.timedOut => Except.error "HTTP request timed out"

/-- Driver for an attempt chain whose every attempt fails, following
the BullMQ contract (spec §4.3/§4.4): the queue re-runs a job whose
handler throws until `attempts` total runs have been made, delivering
`attemptsMade` with each envelope; the worker re-throws on failure
(src/workers/jobWorker.js line 201) to trigger that mechanism.
Internal recursion over the number of remaining runs. -/
def runFailingChainAux : Nat → Nat → Nat → Int → Job →
    Job × List JobExecution × List Notified
  | 0, _, _, _, j => (j, [], [])
  | Nat.succ k, attemptsMade, envMaxRetries, now, j =>
      let e := createExecution j.id attemptsMade now
      let step := processFailure now 0 envMaxRetries attemptsMade "job failed" j e
      let rest := runFailingChainAux k (attemptsMade + 1) envMaxRetries now step.1
      (rest.1, step.2.1 :: rest.2.1, step.2.2 ++ rest.2.2)

/-- The chain of an always-failing job: `attempts` is the queue's
`attempts` option (`defaultJobOptions.attempts =
config.job.maxRetryAttempts`, src/queues/jobQueue.js line 36, since
`enqueueJob` never overrides it), `envMaxRetries` is the envelope's
`maxRetries` field. -/
def runFailingChain (attempts envMaxRetries : Nat) (now : Int) (j : Job) :
    Job × List JobExecution × List Notified :=
  runFailingChainAux attempts 0 envMaxRetries now j

/-- The per-add BullMQ options the scheduler actually passes
(src/services/jobScheduler.js lines 112-124): the immediate case sends
only `{ priority }`; no case overrides `attempts` or `backoff`. -/
structure BullJobOptions where
  priority : Option Nat
  delay : Option Int
  backoffType : Option RetryBackoff
  backoffDelay : Option Nat
deriving DecidableEq, Repr

/-- The options `enqueueJob` passes for an immediate job
(src/services/jobScheduler.js line 114): `{ priority: job.priority }`
and nothing else. -/
def addJobOptions (j : Job) : BullJobOptions :=
  { priority := some j.priority
    delay := none
    backoffType := none
    backoffDelay := none }

/-- Backoff type in force for a delivered envelope: the per-add
override if present, else `defaultJobOptions.backoff.type =
'exponential'` (src/queues/jobQueue.js line 38). -/
def effectiveBackoffType (o : BullJobOptions) : RetryBackoff :=
  o.backoffType.getD RetryBackoff.exponential

/-- Backoff base delay in force: the per-add override if present, else
`defaultJobOptions.backoff.delay = config.job.retryDelayMs`
(src/queues/jobQueue.js line 39). -/
def effectiveBackoffDelay (o : BullJobOptions) : Nat :=
  o.backoffDelay.getD retryDelayMsDefault

/-- BullMQ's built-in backoff computation for the delay before the
retry that follows the `attemptsMade`-th failed run (spec §4.4):
exponential gives `delay * 2 ^ (attemptsMade - 1)`, fixed gives
`delay`. -/
def bullBackoffDelay (bo : RetryBackoff) (baseDelay attemptsMade : Nat) : Nat :=
  match bo with
  | RetryBackoff.exponential => baseDelay * 2 ^ (attemptsMade - 1)
  | RetryBackoff.fixed => baseDelay

/-- The re-enqueue delay the system actually applies after the
`attemptsMade`-th failed run of job `j`: the backoff options in force
are those of `addJobOptions j` merged over the queue defaults. -/
def actualRetryDelay (j : Job) (attemptsMade : Nat) : Nat :=
  bullBackoffDelay (effectiveBackoffType (addJobOptions j))
    (effectiveBackoffDelay (addJobOptions j)) attemptsMade

/-- The spec sentence, stated as written, for comparison with
`actualRetryDelay`: delay `= retry_delay_ms × (backoff == "exponential"
? 2^(attempt−1) : 1)` using the job's own retry configuration. -/
def specRetryDelay (j : Job) (attempt : Nat) : Nat :=
  j.retryDelay *
    (match j.retryBackoff with
     | RetryBackoff.exponential => 2 ^ (attempt - 1)
     | RetryBackoff.fixed => 1)

/-- The schedule part of a create request, after the validation layer:
`scheduledAt` is present exactly for `scheduled`, `cronExpression` and
`timezone` exactly for `recurring`. -/
inductive ScheduleSpec
  | immediate
  | scheduled (instant : Int)
  | recurring (cron : String) (tz : String)
deriving DecidableEq, Repr

/-- The body of a create request (src/services/jobScheduler.js lines
18-37), restricted to the fields the core reads; absent fields are
`none`. -/
structure JobInput where
  spec : ScheduleSpec
  maxRetries : Option Nat
  retryDelay : Option Nat
  retryBackoff : Option RetryBackoff
  timeout : Option Nat
  priority : Option Nat
  endAt : Option Int
  maxExecutions : Option Nat
deriving DecidableEq, Repr

/-- The `Job.create` call of `scheduleJob` (src/services/jobScheduler.js
lines 44-76): defaults applied with `??`, `nextExecutionAt` computed
per schedule type (`now` for immediate, `scheduledAt` for scheduled,
the cron library's next instant `cronNext` for recurring), status
`active`, counters zero. -/
def mkJob (newId : Nat) (now cronNext : Int) (inp : JobInput) : Job :=
  { id := newId
    status := JobStatus.active
    scheduleType :=
      match inp.spec with
      | ScheduleSpec.immediate => ScheduleType.immediate
      | ScheduleSpec.scheduled _ => ScheduleType.scheduled
      | ScheduleSpec.recurring _ _ => ScheduleType.recurring
    scheduledAt :=
      match inp.spec with
      | ScheduleSpec.scheduled t => some t
      | _ => none
    cronExpression :=
      match inp.spec with
      | ScheduleSpec.recurring c _ => some c
      | _ => none
    timezone :=
      match inp.spec with
      | ScheduleSpec.recurring _ z => z
      | _ => "UTC"
    priority := inp.priority.getD 0
    maxRetries := inp.maxRetries.getD 3
    retryDelay := inp.retryDelay.getD 5000
    retryBackoff := inp.retryBackoff.getD RetryBackoff.exponential
    timeout := inp.timeout.getD 300000
    lastExecutedAt := none
    nextExecutionAt :=
      match inp.spec with
      | ScheduleSpec.immediate => some now
      | ScheduleSpec.scheduled t => some t
      | ScheduleSpec.recurring _ _ => some cronNext
    totalExecutions := 0
    successfulExecutions := 0
    failedExecutions := 0
    endAt := inp.endAt
    maxExecutions := inp.maxExecutions }

/-- The planner state the create path touches: the persistent `jobs`
table and the Ready Queue. -/
structure SystemState where
  jobs : List Job
  queue : List QueueEntry
deriving DecidableEq, Repr

/-- `JobScheduler.enqueueJob` (src/services/jobScheduler.js lines
98-125) together with the queue wrapper calls it makes: immediate
jobs are added with a priority band, scheduled jobs go through
`addDelayedJob` (src/queues/jobQueue.js lines 104-112) which computes
`delay = scheduledAt − now` and throws
`Error('Execute time must be in the future')` when `delay < 0`,
recurring jobs register a repeatable entry.  A scheduled job built by
`mkJob` always carries `scheduledAt`; in the unreachable case where it
is absent JavaScript computes a `NaN` delay, `NaN < 0` is false, and
the envelope is enqueued — modelled here with delay 0. -/
def enqueueJob (now : Int) (j : Job) (st : SystemState) :
    Except String SystemState :=
  match j.scheduleType with
  | ScheduleType.immediate =>
      Except.ok { st with queue :=
        st.queue ++ [{ jobId := j.id, kind := QueueKind.immediate j.priority }] }
  | ScheduleType.scheduled =>
      match j.scheduledAt with
      | some t =>
          if t - now < 0 then
            Except.error "Execute time must be in the future"
          else
            Except.ok { st with queue :=
              st.queue ++ [{ jobId := j.id, kind := QueueKind.delayed (t - now) }] }
      | none =>
          Except.ok { st with queue :=
            st.queue ++ [{ jobId := j.id, kind := QueueKind.delayed 0 }] }
  | ScheduleType.recurring =>
      Except.ok { st with queue :=
        st.queue ++ [{ jobId := j.id,
                       kind := QueueKind.repeatable (j.cronExpression.getD "") j.timezone }] }

/-- The persist-then-enqueue tail of `scheduleJob`
(src/services/jobScheduler.js lines 54-79): the job row is created in
the store first; only then is the queue registration attempted, and an
exception thrown there propagates to the caller with the row already
committed (there is no transaction or rollback).  The second component
is the error surfaced to the caller, if any. -/
def persistAndEnqueue (newId : Nat) (now cronNext : Int) (inp : JobInput)
    (st : SystemState) : SystemState × Option String :=
  let row := mkJob newId now cronNext inp
  let st1 : SystemState := { st with jobs := st.jobs ++ [row] }
  match enqueueJob now row st1 with
  | Except.ok st2 => (st2, none)
  | Except.error m => (st1, some m)

/-- `JobScheduler.scheduleJob` (src/services/jobScheduler.js lines
18-92): for recurring jobs the cron expression is validated first
(throwing before anything is persisted); `cronValid` stands for the
cron library's verdict.  Then the row is persisted and the queue
registration performed. -/
def scheduleJob (newId : Nat) (now cronNext : Int) (cronValid : Bool)
    (inp : JobInput) (st : SystemState) : SystemState × Option String :=
  match inp.spec with
  | ScheduleSpec.recurring _ _ =>
      if cronValid then persistAndEnqueue newId now cronNext inp st
      else (st, some "Invalid cron expression")
  | _ => persistAndEnqueue newId now cronNext inp st

/-- A single worker finalize outcome, as applied to the job row: the
success branch or the failure branch of `processJob`. -/
inductive FinalizeStep
  | success (cronNext now : Int) (dur : Nat) (r : HttpResult)
  | failure (now : Int) (dur : Nat) (envMaxRetries attemptsMade : Nat) (msg : String)
deriving DecidableEq, Repr

/-- Apply one finalize outcome to a job row. -/
def applyFinalize (s : FinalizeStep) (j : Job) : Job :=
  match s with
  | FinalizeStep.success c n d r =>
      (processSuccess c n d r j (createExecution j.id 0 n)).1
  | FinalizeStep.failure n d m a msg =>
      (processFailure n d m a msg j (createExecution j.id a n)).1

/-- The counter invariant of spec §8:
`successful_executions + failed_executions ≤ total_executions`. -/
def counterInv (j : Job) : Prop :=
  j.successfulExecutions + j.failedExecutions ≤ j.totalExecutions

/-- A concrete immediate job row with fresh counters, used as input
for the concrete evaluations below. -/
def baseJob : Job :=
  { id := 1
    status := JobStatus.active
    scheduleType := ScheduleType.immediate
    scheduledAt := none
    cronExpression := none
    timezone := "UTC"
    priority := 0
    maxRetries := 3
    retryDelay := 5000
    retryBackoff := RetryBackoff.exponential
    timeout := 300000
    lastExecutedAt := none
    nextExecutionAt := some 0
    totalExecutions := 0
    successfulExecutions := 0
    failedExecutions := 0
    endAt := none
    maxExecutions := none }

/-- A concrete scheduled job row, as created with `scheduledAt = 500`. -/
def schedJob : Job :=
  { baseJob with scheduleType := ScheduleType.scheduled
                 scheduledAt := some 500
                 nextExecutionAt := some 500 }

/-- A concrete recurring job row. -/
def recJob : Job :=
  { baseJob with scheduleType := ScheduleType.recurring
                 cronExpression := some "*/5 * * * *"
                 nextExecutionAt := some 300 }

/-- A concrete recurring job row whose `endAt` has passed at instant 10. -/
def recEndJob : Job :=
  { baseJob with scheduleType := ScheduleType.recurring
                 cronExpression := some "*/5 * * * *"
                 endAt := some 5
                 nextExecutionAt := some 3 }

/-- A concrete job row with a fixed backoff and a non-default retry
delay. -/
def fixedBackoffJob : Job :=
  { baseJob with retryDelay := 1000, retryBackoff := RetryBackoff.fixed }

/-- A concrete create request for a scheduled job at instant 90. -/
def pastInput : JobInput :=
  { spec := ScheduleSpec.scheduled 90
    maxRetries := none
    retryDelay := none
    retryBackoff := none
    timeout := none
    priority := none
    endAt := none
    maxExecutions := none }

lemma updateNextExecution_counters (c n : Int) (j : Job) :
    (updateNextExecution c n j).totalExecutions = j.totalExecutions ∧
    (updateNextExecution c n j).successfulExecutions = j.successfulExecutions ∧
    (updateNextExecution c n j).failedExecutions = j.failedExecutions := by
  unfold updateNextExecution
  split
  · exact ⟨rfl, rfl, rfl⟩
  · split
    · exact ⟨rfl, rfl, rfl⟩
    · split
      · exact ⟨rfl, rfl, rfl⟩
      · exact ⟨rfl, rfl, rfl⟩

lemma applyFinalize_counters (s : FinalizeStep) (j : Job) :
    (applyFinalize s j).totalExecutions = j.totalExecutions + 1 ∧
    (((applyFinalize s j).successfulExecutions = j.successfulExecutions + 1 ∧
      (applyFinalize s j).failedExecutions = j.failedExecutions) ∨
     ((applyFinalize s j).successfulExecutions = j.successfulExecutions ∧
      (applyFinalize s j).failedExecutions = j.failedExecutions + 1)) := by
  cases s with
  | success c n d r =>
      by_cases h : j.scheduleType = ScheduleType.recurring
      · refine ⟨?_, Or.inl ⟨?_, ?_⟩⟩ <;>
          simp [applyFinalize, processSuccess, h,
                (updateNextExecution_counters c n j).2.2]
      · refine ⟨?_, Or.inl ⟨?_, ?_⟩⟩ <;> simp [applyFinalize, processSuccess, h]
  | failure n d m a msg =>
      cases hl : isLastAttempt a m <;>
        simp [applyFinalize, processFailure, hl]

/-- C1 counterexample: at `max_retries = 2` the worker already treats
attempt 2 (`attemptsMade = 1`) as the last one, while the spec's rule
`is_last = attempt ≥ max + 1` says attempt 2 is not last. -/
theorem lastAttempt_threshold_cex :
    isLastAttempt 1 2 = true ∧ specIsLast (1 + 1) 2 = false := by decide

/-- C1 (amended): the worker treats a failing attempt as the last one
exactly when `attempt ≥ max_retries` (a zero envelope value being
replaced by the default 3), not `max_retries + 1`; the chain of an
always-failing job with `max_retries = 2` still runs exactly three
failed Executions, because the queue's default `attempts` option is 3,
with the worker marking attempts 2 and 3 as last. -/
theorem lastAttempt_threshold_amended (now : Int) (j : Job) :
    (runFailingChain 3 2 now j).2.1.map (fun e => (e.attempt, e.status)) =
      [(1, ExecStatus.failed), (2, ExecStatus.failed), (3, ExecStatus.failed)] ∧
    (runFailingChain 3 2 now j).2.2 =
      [Notified.jobRetry, Notified.maxRetriesExceeded, Notified.maxRetriesExceeded] ∧
    (runFailingChain 3 2 now j).1.status = JobStatus.failed ∧
    (∀ attemptsMade maxRetries, maxRetries ≠ 0 →
        isLastAttempt attemptsMade maxRetries =
          decide (attemptsMade + 1 ≥ maxRetries)) :=
  ⟨rfl, rfl, rfl,
   fun _ _ h => by simp [isLastAttempt, effectiveMaxRetries, h]⟩

/-- C1 witness: the amended last-attempt rule evaluated at
`attemptsMade = 1`, `max_retries = 2`. -/
theorem lastAttempt_threshold_amended_witness :
    isLastAttempt 1 2 = decide (1 + 1 ≥ 2) :=
  (lastAttempt_threshold_amended 0 baseJob).2.2.2 1 2 (by decide)

/-- C2 counterexample: cancelling a scheduled job sets the terminal
status `cancelled` but leaves `next_execution_at = 500` in place, so
the invariant `status ∈ terminal ⇒ next_execution_at = null` fails. -/
theorem terminal_next_execution_cex :
    (cancelJob schedJob []).1.status = JobStatus.cancelled ∧
    (cancelJob schedJob []).1.nextExecutionAt = some 500 := by decide

/-- C2 (amended): cancel, the recurring end-condition advance, and the
final failed attempt all set a terminal status but leave
`next_execution_at` unchanged (possibly non-null); none of them nulls
it. -/
theorem terminal_keeps_next_execution :
    (∀ (j : Job) (q : List QueueEntry),
        (cancelJob j q).1.status = JobStatus.cancelled ∧
        (cancelJob j q).1.nextExecutionAt = j.nextExecutionAt) ∧
    (∀ (c now : Int) (j : Job) (e : Int),
        j.scheduleType = ScheduleType.recurring → j.endAt = some e → e ≤ now →
        (updateNextExecution c now j).status = JobStatus.completed ∧
        (updateNextExecution c now j).nextExecutionAt = j.nextExecutionAt) ∧
    (∀ (now : Int) (dur mr am : Nat) (msg : String) (j : Job) (en : JobExecution),
        isLastAttempt am mr = true →
        (processFailure now dur mr am msg j en).1.status = JobStatus.failed ∧
        (processFailure now dur mr am msg j en).1.nextExecutionAt = j.nextExecutionAt) := by
  refine ⟨fun j q => ⟨rfl, rfl⟩, ?_, ?_⟩
  · intro c now j e hrec hend hle
    have h1 : endReached now j = true := by simp [endReached, hend]; omega
    simp [updateNextExecution, hrec, h1]
  · intro now dur mr am msg j en h
    simp [processFailure, h]

/-- C2 witness: the end-condition advance at instant 10 on a recurring
job with `endAt = 5`, and the final failed attempt on a job with
`next_execution_at = 0`. -/
theorem terminal_keeps_next_execution_witness :
    ((updateNextExecution 0 10 recEndJob).status = JobStatus.completed ∧
     (updateNextExecution 0 10 recEndJob).nextExecutionAt = recEndJob.nextExecutionAt) ∧
    ((processFailure 0 0 2 1 "boom" baseJob (createExecution 1 1 0)).1.status = JobStatus.failed ∧
     (processFailure 0 0 2 1 "boom" baseJob (createExecution 1 1 0)).1.nextExecutionAt =
       baseJob.nextExecutionAt) :=
  ⟨terminal_keeps_next_execution.2.1 0 10 recEndJob 5 rfl rfl (by decide),
   terminal_keeps_next_execution.2.2 0 0 2 1 "boom" baseJob (createExecution 1 1 0) (by decide)⟩

/-- C3: every worker finalize increments `total_executions` by one and
exactly one of `successful_executions`/`failed_executions` by one;
cancel, pause, resume and the recurring advance leave the counters
unchanged; hence `successful + failed ≤ total` is preserved by every
sequence of finalize steps. -/
theorem finalize_counter_invariant :
    (∀ (s : FinalizeStep) (j : Job),
        (applyFinalize s j).totalExecutions = j.totalExecutions + 1 ∧
        (((applyFinalize s j).successfulExecutions = j.successfulExecutions + 1 ∧
          (applyFinalize s j).failedExecutions = j.failedExecutions) ∨
         ((applyFinalize s j).successfulExecutions = j.successfulExecutions ∧
          (applyFinalize s j).failedExecutions = j.failedExecutions + 1))) ∧
    (∀ (j : Job) (q : List QueueEntry),
        (cancelJob j q).1.totalExecutions = j.totalExecutions ∧
        (cancelJob j q).1.successfulExecutions = j.successfulExecutions ∧
        (cancelJob j q).1.failedExecutions = j.failedExecutions ∧
        (pauseJob j q).1.totalExecutions = j.totalExecutions ∧
        (pauseJob j q).1.successfulExecutions = j.successfulExecutions ∧
        (pauseJob j q).1.failedExecutions = j.failedExecutions) ∧
    (∀ (c n : Int) (j : Job),
        (updateNextExecution c n j).totalExecutions = j.totalExecutions ∧
        (updateNextExecution c n j).successfulExecutions = j.successfulExecutions ∧
        (updateNextExecution c n j).failedExecutions = j.failedExecutions) ∧
    (∀ (c : Int) (j : Job),
        (resumeJob c j).map
            (fun j2 => (j2.totalExecutions, j2.successfulExecutions, j2.failedExecutions)) =
        (resumeJob c j).map
            (fun _ => (j.totalExecutions, j.successfulExecutions, j.failedExecutions))) ∧
    (∀ (steps : List FinalizeStep) (j : Job), counterInv j →
        counterInv (List.foldl (fun a s => applyFinalize s a) j steps)) := by
  refine ⟨applyFinalize_counters, fun j q => ⟨rfl, rfl, rfl, rfl, rfl, rfl⟩,
          updateNextExecution_counters, ?_, ?_⟩
  · intro c j
    unfold resumeJob
    by_cases hp : j.status ≠ JobStatus.paused
    · simp [hp, Except.map]
    · by_cases hr : j.scheduleType = ScheduleType.recurring <;>
        simp [hp, hr, Except.map]
  · intro steps
    induction steps with
    | nil => exact fun j h => h
    | cons s rest ih =>
        intro j h
        refine ih (applyFinalize s j) ?_
        obtain ⟨ht, hd⟩ := applyFinalize_counters s j
        unfold counterInv at h ⊢
        rcases hd with ⟨h1, h2⟩ | ⟨h1, h2⟩ <;> omega

/-- C3 witness: the invariant holds after one failing finalize applied
to a fresh job. -/
theorem finalize_counter_invariant_witness :
    counterInv (List.foldl (fun a s => applyFinalize s a) baseJob
      [FinalizeStep.failure 0 0 3 0 "err"]) :=
  finalize_counter_invariant.2.2.2.2 [FinalizeStep.failure 0 0 3 0 "err"] baseJob
    (by unfold counterInv; decide)

/-- C4: an immediate job whose first attempt succeeds yields one
Execution with status `completed`, `attempt = 1`, `is_retry = false`,
`completed_at`, `duration` and `result` set; the job ends `completed`
with `successful_executions = 1`, `total_executions = 1` and
`last_executed_at` set, and the completion notification fires. -/
theorem immediate_first_success (c now : Int) (dur : Nat) (r : HttpResult)
    (mr : Nat) (j : Job)
    (hs : j.scheduleType = ScheduleType.immediate)
    (ht : j.totalExecutions = 0) (hsucc : j.successfulExecutions = 0) :
    (processAttempt c now dur mr 0 (Except.ok r) j).2.1.status = ExecStatus.completed ∧
    (processAttempt c now dur mr 0 (Except.ok r) j).2.1.attempt = 1 ∧
    (processAttempt c now dur mr 0 (Except.ok r) j).2.1.isRetry = false ∧
    (processAttempt c now dur mr 0 (Except.ok r) j).2.1.completedAt = some now ∧
    (processAttempt c now dur mr 0 (Except.ok r) j).2.1.duration = some dur ∧
    (processAttempt c now dur mr 0 (Except.ok r) j).2.1.result = some r ∧
    (processAttempt c now dur mr 0 (Except.ok r) j).1.status = JobStatus.completed ∧
    (processAttempt c now dur mr 0 (Except.ok r) j).1.successfulExecutions = 1 ∧
    (processAttempt c now dur mr 0 (Except.ok r) j).1.totalExecutions = 1 ∧
    (processAttempt c now dur mr 0 (Except.ok r) j).1.lastExecutedAt = some now ∧
    (processAttempt c now dur mr 0 (Except.ok r) j).2.2 = [Notified.jobCompleted] := by
  simp [processAttempt, processSuccess, createExecution, hs, ht, hsucc]

/-- C4 witness: the scenario evaluated on the concrete immediate job
with a 200 response. -/
theorem immediate_first_success_witness :
    (processAttempt 0 50 7 3 0 (Except.ok { statusCode := 200, body := "ok" }) baseJob).1.status
        = JobStatus.completed ∧
    (processAttempt 0 50 7 3 0 (Except.ok { statusCode := 200, body := "ok" }) baseJob).1.totalExecutions = 1 :=
  ⟨(immediate_first_success 0 50 7 { statusCode := 200, body := "ok" } 3 baseJob rfl rfl rfl).2.2.2.2.2.2.1,
   (immediate_first_success 0 50 7 { statusCode := 200, body := "ok" } 3 baseJob rfl rfl rfl).2.2.2.2.2.2.2.2.1⟩

/-- C5 counterexample: the execution row created for a retried attempt
(`attemptsMade = 1`) has `is_retry = true` but
`previous_execution_id = null`; it is never linked to its predecessor. -/
theorem retry_link_cex :
    (createExecution 1 1 0).isRetry = true ∧
    (createExecution 1 1 0).previousExecutionId = none := by decide

/-- C5 (amended): every execution row the worker creates has
`previous_execution_id = null`; retried attempts are distinguished
only by `is_retry = attemptsMade > 0` (the chain head has
`is_retry = false`), so no linked retry chain is formed. -/
theorem retry_link_amended :
    (∀ (id am : Nat) (now : Int),
        (createExecution id am now).previousExecutionId = none ∧
        (createExecution id am now).isRetry = decide (0 < am)) ∧
    (∀ (now : Int) (j : Job),
        (runFailingChain 3 2 now j).2.1.map
            (fun e => (e.isRetry, e.previousExecutionId)) =
          [(false, none), (true, none), (true, none)]) :=
  ⟨fun _ _ _ => ⟨rfl, rfl⟩, fun _ _ => rfl⟩

/-- C6 counterexample: for a job with `retry_delay_ms = 1000` and
`retry_backoff = fixed`, the system's re-enqueue delay after the first
failure is 5000 ms (the queue default, exponential), not the job's
1000 ms as the claim computes. -/
theorem retry_delay_cex :
    actualRetryDelay fixedBackoffJob 1 = 5000 ∧
    specRetryDelay fixedBackoffJob 1 = 1000 ∧
    actualRetryDelay fixedBackoffJob 1 ≠ specRetryDelay fixedBackoffJob 1 := by decide

/-- C6 (amended): the re-enqueue delay before the next attempt is
always `config.job.retryDelayMs × 2^(attempt−1)` — the queue's default
exponential backoff — because `enqueueJob` passes only a priority and
never the job's `retry_delay_ms` or `retry_backoff`. -/
theorem retry_delay_amended (j : Job) (attemptsMade : Nat) :
    actualRetryDelay j attemptsMade =
      retryDelayMsDefault * 2 ^ (attemptsMade - 1) := rfl

/-- C7 counterexample: when the last allowed attempt of a recurring
job fails, the worker sets `status = failed`; the job is not left
`active`. -/
theorem recurring_last_attempt_cex :
    (processFailure 0 0 2 1 "boom" recJob (createExecution recJob.id 1 0)).1.status
      = JobStatus.failed ∧
    JobStatus.failed ≠ JobStatus.active := by decide

/-- C7 (amended): when the last allowed attempt fails, every job —
recurring or not — transitions to `status = failed`, and the
`max_retries_exceeded` notification is emitted. -/
theorem last_attempt_marks_failed (now : Int) (dur mr am : Nat) (msg : String)
    (j : Job) (e : JobExecution) (h : isLastAttempt am mr = true) :
    (processFailure now dur mr am msg j e).1.status = JobStatus.failed ∧
    (processFailure now dur mr am msg j e).2.2 = [Notified.maxRetriesExceeded] := by
  simp [processFailure, h]

/-- C7 witness: the amended statement evaluated on the concrete
recurring job at its last attempt. -/
theorem last_attempt_marks_failed_witness :
    (processFailure 0 0 2 1 "boom" recJob (createExecution recJob.id 1 0)).1.status
        = JobStatus.failed ∧
    (processFailure 0 0 2 1 "boom" recJob (createExecution recJob.id 1 0)).2.2
        = [Notified.maxRetriesExceeded] :=
  last_attempt_marks_failed 0 0 2 1 "boom" recJob (createExecution recJob.id 1 0) (by decide)

/-- C8 counterexample: when the HTTP request times out the attempt is
recorded with Execution `status = failed`, not `status = timeout`. -/
theorem timeout_recorded_failed_cex :
    executeHttpJob HttpEvent.timedOut = Except.error "HTTP request timed out" ∧
    (processAttempt 0 0 1000 3 0 (executeHttpJob HttpEvent.timedOut) baseJob).2.1.status
      = ExecStatus.failed ∧
    ExecStatus.failed ≠ ExecStatus.timeout :=
  ⟨rfl, by decide, by decide⟩

/-- C8 (amended): on timeout the executor destroys the request and
rejects with `'HTTP request timed out'`; the worker then runs exactly
the ordinary failure branch — the Execution is recorded with
`status = failed` and the outcome feeds the retry decision precisely
as any other failure. -/
theorem timeout_treated_as_failure (c now : Int) (dur mr am : Nat) (j : Job) :
    executeHttpJob HttpEvent.timedOut = Except.error "HTTP request timed out" ∧
    processAttempt c now dur mr am (executeHttpJob HttpEvent.timedOut) j =
      processFailure now dur mr am "HTTP request timed out" j (createExecution j.id am now) ∧
    (processAttempt c now dur mr am (executeHttpJob HttpEvent.timedOut) j).2.1.status
      = ExecStatus.failed := by
  refine ⟨rfl, rfl, ?_⟩
  cases h : isLastAttempt am mr <;>
    simp [processAttempt, processFailure, createExecution, executeHttpJob, h]

/-- C9 counterexample: creating a scheduled job with
`scheduledAt = now − 10` through the planner is rejected by the
delayed-enqueue step and no queue entry is created, but the job row
has already been persisted — the store is not unchanged. -/
theorem past_schedule_persists_cex :
    (scheduleJob 1 100 0 true pastInput { jobs := [], queue := [] }).2
      = some "Execute time must be in the future" ∧
    (scheduleJob 1 100 0 true pastInput { jobs := [], queue := [] }).1.queue = [] ∧
    (scheduleJob 1 100 0 true pastInput { jobs := [], queue := [] }).1.jobs.length = 1 := by
  decide

/-- C9 (amended): for a scheduled job whose `scheduledAt` lies in the
past, the planner surfaces the rejection (`'Execute time must be in
the future'`, thrown by the delayed enqueue) and creates no queue
entry, but the job row is persisted before the rejection; only the
store gains exactly that one row. -/
theorem past_schedule_rejection (newId : Nat) (now c : Int) (v : Bool)
    (inp : JobInput) (st : SystemState) (t : Int)
    (hspec : inp.spec = ScheduleSpec.scheduled t) (hpast : t < now) :
    scheduleJob newId now c v inp st =
      ({ st with jobs := st.jobs ++ [mkJob newId now c inp] },
       some "Execute time must be in the future") := by
  have hdelay : t - now < 0 := by omega
  simp [scheduleJob, hspec, persistAndEnqueue, enqueueJob, mkJob, hdelay]

/-- C9 witness: the amended statement evaluated at `now = 100`,
`scheduledAt = 90` on the empty planner state. -/
theorem past_schedule_rejection_witness :
    scheduleJob 1 100 0 true pastInput { jobs := [], queue := [] } =
      ({ jobs := [] ++ [mkJob 1 100 0 pastInput], queue := [] },
       some "Execute time must be in the future") :=
  past_schedule_rejection 1 100 0 true pastInput { jobs := [], queue := [] } 90
    rfl (by decide)

/-- C10: the worker's `jobData.maxRetries || config.job.maxRetryAttempts`
treats a zero `maxRetries` as absent and substitutes the default 3, so
the last-attempt decision for a job with `max_retries = 0` coincides
with that of `max_retries = 3`, and its first failed attempt is not
treated as last — a retry notification is emitted instead. -/
theorem maxRetries_zero_defaulted :
    effectiveMaxRetries 0 = maxRetryAttemptsDefault ∧
    (∀ attemptsMade, isLastAttempt attemptsMade 0 = isLastAttempt attemptsMade 3) ∧
    isLastAttempt 0 0 = false ∧
    (∀ (now : Int) (j : Job),
        (processFailure now 0 0 0 "err" j (createExecution j.id 0 now)).2.2
          = [Notified.jobRetry]) :=
  ⟨rfl, fun _ => rfl, by decide, fun _ _ => rfl⟩

end Chronos
